import Mathlib

/-!
Verification of the message-triage pipeline of a community Telegram bot
(moderation → FAQ semantic matching → mentor routing), as a shallow
embedding of `bot/services/moderation_service.py`, `bot/services/faq_service.py`,
`bot/services/routing_service.py`, `bot/llm/providers/claude.py` and
`bot/handlers/message.py`.

Conventions of the embedding:
* Python floats (confidences, thresholds, embedding coordinates, SQL
  `float[]` arithmetic) are modelled as exact rationals `ℚ`.
* Database rows are in-memory structures; a table is a `List` of rows, and
  a query/update is a pure function from the list to the result
  (and the updated list where the code writes).
* A Python `dict` returned by `generate_json` is a record of `Option`
  fields, one per key the code reads with `.get`; an absent key is `none`.
* A raised exception is an `Except.error`; an `async` call that can fail
  is a value of `Except` supplied as input to the caller's model.
-/

/-! ## Moderation service (`bot/services/moderation_service.py`) -/

/-- `ModerationResult` dataclass: result of a content moderation check. -/
structure ModerationResult where
  is_appropriate : Bool
  category : String
  confidence : ℚ
  reason : String
deriving DecidableEq, Repr

/-- The JSON document `generate_json` returns to `check_content`, as the four
keys the code reads with `response.get(...)`; `none` models an absent key. -/
structure ModResponse where
  is_appropriate : Option Bool
  category : Option String
  confidence : Option ℚ
  reason : Option String
deriving DecidableEq, Repr

/-- Field extraction of `check_content` (moderation_service.py lines 63–68):
`response.get("is_appropriate", True)`, `response.get("category", "clean")`,
`response.get("confidence", 0.5)`, `response.get("reason", "No specific reason")`. -/
def parse_moderation_response (response : ModResponse) : ModerationResult :=
  { is_appropriate := response.is_appropriate.getD true
    category := response.category.getD "clean"
    confidence := response.confidence.getD (1/2)
    reason := response.reason.getD "No specific reason" }

/-- `ModerationService.should_delete` (moderation_service.py lines 127–133):
`not result.is_appropriate and result.confidence >= self.threshold and
result.category != "clean"`.  `threshold` is
`settings.MODERATION_CONFIDENCE_THRESHOLD`. -/
def should_delete (threshold : ℚ) (result : ModerationResult) : Bool :=
  !result.is_appropriate && decide (threshold ≤ result.confidence)
    && decide (result.category ≠ "clean")

/-- One `ModerationLog` row as `_log_moderation` writes it (the columns the
claims are about; `reason` stores the category, as in the source). -/
structure ModerationLogRec where
  action : String
  reason : String
  confidence : ℚ
deriving DecidableEq, Repr

/-- `_log_moderation` (moderation_service.py lines 100–122): the row written
for a check; `action = "deleted" if not result.is_appropriate else "allowed"`,
`reason = result.category`, `confidence = result.confidence`. -/
def moderation_log_entry (result : ModerationResult) : ModerationLogRec :=
  { action := if !result.is_appropriate then "deleted" else "allowed"
    reason := result.category
    confidence := result.confidence }

/-- `check_content` (moderation_service.py lines 38–98): the `generate_json`
outcome is the input; a provider error is re-raised as a `ModerationError`
(`.error`), a parsed document yields the result and the audit row written by
`_log_moderation` before the caller acts. -/
def check_content (response : Except String ModResponse) :
    Except String (ModerationResult × ModerationLogRec) :=
  match response with
  | .error e => .error ("Moderation check failed: " ++ e)
  | .ok r =>
      let result := parse_moderation_response r
      .ok (result, moderation_log_entry result)

/-! ## Routing service (`bot/services/routing_service.py`) -/

/-- `RoutingDecision` dataclass: result of routing analysis. -/
structure RoutingDecision where
  complexity : String
  domains : List String
  should_tag_mentors : Bool
  reason : String
  suggested_mentors : List String
deriving DecidableEq, Repr

/-- The JSON document `generate_json` returns to `analyze_question`, as the
five keys the code reads with `response.get(...)`; `none` models an absent key. -/
structure RoutingResponse where
  complexity : Option String
  domains : Option (List String)
  should_tag_mentors : Option Bool
  reason : Option String
  suggested_mentors : Option (List String)
deriving DecidableEq, Repr

/-- `RoutingService.analyze_question` (routing_service.py lines 39–86): the
`generate_json` outcome is the input.  A parsed document yields a decision with
per-field defaults; an `LLMProviderError` is caught and the safe default
decision (`complexity="unknown"`, no domains, no tagging, the failure embedded
in `reason`) is returned — never re-raised. -/
def analyze_question (response : Except String RoutingResponse) : RoutingDecision :=
  match response with
  | .ok r =>
      { complexity := r.complexity.getD "moderate"
        domains := r.domains.getD []
        should_tag_mentors := r.should_tag_mentors.getD false
        reason := r.reason.getD "No specific reason"
        suggested_mentors := r.suggested_mentors.getD [] }
  | .error e =>
      { complexity := "unknown"
        domains := []
        should_tag_mentors := false
        reason := "Analysis failed: " ++ e
        suggested_mentors := [] }

/-- A `users` table row (bot/db/models.py, class `User`), with the columns the
routing and pipeline code reads. -/
structure UserRec where
  id : Int
  telegram_id : Int
  username : Option String
  is_admin : Bool
  is_mentor : Bool
deriving DecidableEq, Repr

/-- The mentor-domain configuration `settings.get_mentor_domains()`: a JSON
object mapping a domain name to a list of mentor telegram ids, modelled as an
association list (JSON object keys are unique). -/
abbrev MentorDomains := List (String × List Int)

/-- `RoutingService.get_mentors_for_domains` (routing_service.py lines 88–120):
collect `mentor_ids` as a set — `for domain in domains: if domain in
self.mentor_domains: mentor_ids.update(self.mentor_domains[domain])` — return
`[]` when the set is empty, else the store rows with
`telegram_id IN mentor_ids AND is_mentor = TRUE`. -/
def get_mentors_for_domains (mentor_domains : MentorDomains) (store : List UserRec)
    (domains : List String) : List UserRec :=
  let mentor_ids : Finset Int :=
    domains.foldl
      (fun s d =>
        match mentor_domains.lookup d with
        | some ids => s ∪ ids.toFinset
        | none => s)
      ∅
  if mentor_ids = ∅ then []
  else store.filter (fun u => decide (u.telegram_id ∈ mentor_ids) && u.is_mentor)

/-- Whether the configuration lists `tid` as a mentor for domain `d`:
`d in self.mentor_domains` and `tid` in `self.mentor_domains[d]`. -/
def configured_mentor_for (mentor_domains : MentorDomains) (tid : Int) (d : String) : Bool :=
  match mentor_domains.lookup d with
  | some ids => decide (tid ∈ ids)
  | none => false

/-! ## Claude provider (`bot/llm/providers/claude.py`) -/

/-- `ClaudeProvider.get_embedding` (claude.py lines 67–76): unconditionally
raises `LLMProviderError` — the Claude variant has no embeddings capability. -/
def claude_get_embedding (_text : String) : Except String (List ℚ) :=
  .error ("Claude provider doesn\x27t support embeddings. "
    ++ "Use OpenAI or implement Voyage AI integration.")

/-! ## FAQ service (`bot/services/faq_service.py`)

`find_matching_faq` embeds the question, then runs one SQL query computing,
for every `faqs` row with a non-null `embedding`,

    similarity = (SELECT SUM(a*b) FROM unnest(embedding) JOIN unnest(q) ON ord)
               / ( SQRT(SELECT SUM(a*a) FROM unnest(embedding))
                 * SQRT(SELECT SUM(b*b) FROM unnest(q)) )

ordered by `similarity DESC` with `LIMIT 1`, and compares the fetched row's
similarity with the configured threshold.

The square roots are irrational in general, so the embedding keeps each row's
similarity as the exact triple `(dot, ‖q‖², ‖e‖²)` and decides every
comparison the code performs on similarities (`>= threshold`, `ORDER BY
... DESC`) by an exact rational test, sign-split and squared so that it is
equivalent to the comparison of the real values `dot / (√‖q‖²·√‖e‖²)`
(database floats are idealised as exact reals).  PostgreSQL semantics of the
expression: an aggregate over zero rows is NULL, so an empty array makes the
similarity NULL (no error); a nonempty zero-norm vector makes the denominator
a non-NULL 0 and the division raises `division by zero`, which aborts the
whole query. -/

/-- `SUM(a*b)` over `unnest(x) JOIN unnest(y) ON ordinality`: the dot product
of the common prefix. -/
def dotP (x y : List ℚ) : ℚ := (List.zipWith (· * ·) x y).sum

/-- `SUM(a*a)` over `unnest(x)`: the squared Euclidean norm. -/
def nsq (x : List ℚ) : ℚ := (x.map (fun a => a * a)).sum

/-- Exact decision of `t * √m ≤ d` for `0 ≤ m`, by sign analysis and
squaring (used for the code's `similarity >= self.similarity_threshold`). -/
def ratSqrtLe (t d m : ℚ) : Bool :=
  if 0 ≤ t then decide (0 ≤ d) && decide (t ^ 2 * m ≤ d ^ 2)
  else decide (0 ≤ d) || decide (d ^ 2 ≤ t ^ 2 * m)

/-- Exact decision of `a * √m ≤ b * √n` for `0 < m`, `0 < n`, by sign
analysis and squaring (used for the query's `ORDER BY similarity DESC`:
`d₂/√n₂ ≤ d₁/√n₁ ↔ d₂·√n₁ ≤ d₁·√n₂`). -/
def sqrtMulLe (a m b n : ℚ) : Bool :=
  if 0 ≤ b then decide (a ≤ 0) || decide (a ^ 2 * m ≤ b ^ 2 * n)
  else decide (a ≤ 0) && decide (b ^ 2 * n ≤ a ^ 2 * m)

/-- Outcome of the SQL similarity expression on one row: a NULL (an aggregate
over an empty array), the `division by zero` error (nonempty vectors, zero
denominator), or the value `dot / (√nq · √ne)` kept as its exact triple. -/
inductive SimOutcome where
  | null : SimOutcome
  | divByZero : SimOutcome
  | ok (dot nq ne : ℚ) : SimOutcome
deriving DecidableEq, Repr

/-- The SQL similarity expression for stored embedding `e` against question
embedding `q` (faq_service.py lines 76–90, evaluated per row). -/
def similarity_outcome (q e : List ℚ) : SimOutcome :=
  if q = [] ∨ e = [] then .null
  else if nsq q = 0 ∨ nsq e = 0 then .divByZero
  else .ok (dotP q e) (nsq q) (nsq e)

/-- A `faqs` table row (bot/db/models.py, class `FAQ`), with the columns the
matcher reads and writes. -/
structure FAQ where
  id : ℕ
  question : String
  answer : String
  embedding : Option (List ℚ)
  times_matched : ℕ
deriving DecidableEq, Repr

/-- `ORDER BY similarity DESC` comparison between two fetched rows: row `x`
sorts at least as early as row `y`.  PostgreSQL puts NULLs first in
descending order; `divByZero` never reaches the sort (the query has already
raised), so its value here is arbitrary. -/
def rowGe (x y : FAQ × SimOutcome) : Bool :=
  match x.2, y.2 with
  | .divByZero, _ => true
  | _, .divByZero => true
  | .null, _ => true
  | .ok _ _ _, .null => false
  | .ok d₁ _ n₁, .ok d₂ _ n₂ => sqrtMulLe d₂ n₁ d₁ n₂

/-- The row the cursor fetches: a maximal row of the sort order, found by a
left fold (ties may return any tied row; callers must not depend on which). -/
def pickBest (c : FAQ × SimOutcome) (cs : List (FAQ × SimOutcome)) : FAQ × SimOutcome :=
  cs.foldl (fun b r => if rowGe b r then b else r) c

/-- The Python comparison `similarity >= self.similarity_threshold` on the
fetched row, after `similarity = float(row.similarity) if row.similarity
else 0.0` (a NULL similarity is read as `0.0`). -/
def rowPass (t : ℚ) : SimOutcome → Bool
  | .null => decide (t ≤ 0)
  | .divByZero => false
  | .ok d nq ne => ratSqrtLe t d (nq * ne)

/-- `FAQService._increment_match_count` (faq_service.py lines 198–207): the
row with the given primary key gets `times_matched += 1` (`id` is the primary
key, so at most one row matches). -/
def increment_match_count (store : List FAQ) (faq_id : ℕ) : List FAQ :=
  store.map (fun f =>
    if f.id = faq_id then { f with times_matched := f.times_matched + 1 } else f)

/-- `FAQService.find_matching_faq` (faq_service.py lines 34–127) with
`top_k = 1`, given the question embedding `q` (the `get_embedding` call has
already succeeded) and threshold `t`: rows with `embedding IS NOT NULL` are
ranked; if any row's similarity raises `division by zero` the query aborts
and the generic handler returns no match; an absent row returns no match;
otherwise the best row is returned as a match iff its similarity passes the
threshold, incrementing its match counter.  Returns the match (the row as
fetched, before the increment) and the table after the call. -/
def find_matching_faq (store : List FAQ) (q : List ℚ) (t : ℚ) :
    Option FAQ × List FAQ :=
  let cands := store.filterMap (fun f =>
    f.embedding.map (fun e => (f, similarity_outcome q e)))
  if cands.any (fun c => decide (c.2 = SimOutcome.divByZero)) then (none, store)
  else
    match cands with
    | [] => (none, store)
    | c :: cs =>
        let best := pickBest c cs
        if rowPass t best.2 then (some best.1, increment_match_count store best.1.id)
        else (none, store)

/-! ## Pipeline orchestrator (`bot/handlers/message.py`, `handle_message`) -/

/-- Everything `handle_message` consumes for one inbound text message: the
stored member's role flags (recomputed from configuration by
`_get_or_create_user`), the outcome of each LLM call it may make, the two
thresholds, the FAQ table, and the routing configuration and user table. -/
structure PipelineInput where
  is_admin : Bool
  is_mentor : Bool
  modResponse : Except String ModResponse
  modThreshold : ℚ
  embedResponse : Except String (List ℚ)
  faqStore : List FAQ
  simThreshold : ℚ
  routeResponse : Except String RoutingResponse
  mentorDomains : MentorDomains
  userStore : List UserRec
deriving Repr

/-- The observable effects of one `handle_message` run: whether the message
row was stored, the `ModerationLog` rows written, whether the Telegram
message was deleted, the FAQ reply sent (if any), whether the mentor-paging
reply was sent, the `MentorTag` rows written (as tagged mentor user ids), and
the FAQ table after the run. -/
structure Effects where
  stored : Bool
  modLogs : List ModerationLogRec
  deleted : Bool
  faqReply : Option FAQ
  routeReplySent : Bool
  mentorTags : List Int
  faqStoreAfter : List FAQ
deriving DecidableEq, Repr

/-- The FAQ stage of the pipeline: `faq_service.find_matching_faq(text)` —
a provider error in `get_embedding` is caught inside `find_matching_faq`
(`except LLMProviderError: return None`), otherwise the query runs. -/
def faq_stage (inp : PipelineInput) : Option FAQ × List FAQ :=
  match inp.embedResponse with
  | .error _ => (none, inp.faqStore)
  | .ok q => find_matching_faq inp.faqStore q inp.simThreshold

/-- `handle_message` (message.py lines 37–108) after the message row is
stored: an elevated author (`db_user.is_admin or db_user.is_mentor`) returns
at once; then moderation (a `ModerationError` escapes to the outer handler,
ending the run), deleting and stopping when `should_delete`; then the FAQ
stage, replying and stopping on a match; then routing, paging mentors and
writing one `MentorTag` per resolved mentor only when the decision says to
tag, its domain list is non-empty and at least one mentor is resolved. -/
def handle_message (inp : PipelineInput) : Effects :=
  if inp.is_admin || inp.is_mentor then
    { stored := true, modLogs := [], deleted := false, faqReply := none,
      routeReplySent := false, mentorTags := [], faqStoreAfter := inp.faqStore }
  else
    match check_content inp.modResponse with
    | .error _ =>
        { stored := true, modLogs := [], deleted := false, faqReply := none,
          routeReplySent := false, mentorTags := [], faqStoreAfter := inp.faqStore }
    | .ok (result, logEntry) =>
        if should_delete inp.modThreshold result then
          { stored := true, modLogs := [logEntry], deleted := true, faqReply := none,
            routeReplySent := false, mentorTags := [], faqStoreAfter := inp.faqStore }
        else
          let faqRes := faq_stage inp
          match faqRes.1 with
          | some f =>
              { stored := true, modLogs := [logEntry], deleted := false,
                faqReply := some f, routeReplySent := false, mentorTags := [],
                faqStoreAfter := faqRes.2 }
          | none =>
              let decision := analyze_question inp.routeResponse
              if decision.should_tag_mentors && !decision.domains.isEmpty then
                let mentors := get_mentors_for_domains inp.mentorDomains
                  inp.userStore decision.domains
                if !mentors.isEmpty then
                  { stored := true, modLogs := [logEntry], deleted := false,
                    faqReply := none, routeReplySent := true,
                    mentorTags := mentors.map (fun m => m.id),
                    faqStoreAfter := faqRes.2 }
                else
                  { stored := true, modLogs := [logEntry], deleted := false,
                    faqReply := none, routeReplySent := false, mentorTags := [],
                    faqStoreAfter := faqRes.2 }
              else
                { stored := true, modLogs := [logEntry], deleted := false,
                  faqReply := none, routeReplySent := false, mentorTags := [],
                  faqStoreAfter := faqRes.2 }

/-! ## Claims about the moderation stage -/

/-- C1: `should_delete` returns true iff the result is inappropriate AND its
confidence is at least the configured threshold AND its category is not
"clean"; at the boundary, confidence exactly equal to the threshold deletes
(when the other two conditions hold) and confidence strictly below it never
deletes. -/
theorem spec_c1 (threshold : ℚ) (r : ModerationResult) :
    (should_delete threshold r = true ↔
      r.is_appropriate = false ∧ threshold ≤ r.confidence ∧ r.category ≠ "clean") ∧
    (r.is_appropriate = false ∧ r.confidence = threshold ∧ r.category ≠ "clean" →
      should_delete threshold r = true) ∧
    (r.confidence < threshold → should_delete threshold r = false) := by
  refine ⟨?_, ?_, ?_⟩
  · simp [should_delete, Bool.and_eq_true, Bool.not_eq_true', and_assoc]
  · rintro ⟨h1, h2, h3⟩
    simp [should_delete, h1, h2.ge, h3, h2.symm.le]
  · intro h
    simp [should_delete, not_le.mpr h]

/-- C7: a field missing from the structured moderation response is not an
error: `check_content` substitutes the defaults `is_appropriate = true`,
`category = "clean"`, `confidence = 0.5` and `reason = "No specific reason"`
for each absent field, and returns a complete result. -/
theorem spec_c7 (response : ModResponse) :
    (response.is_appropriate = none →
      (parse_moderation_response response).is_appropriate = true) ∧
    (response.category = none →
      (parse_moderation_response response).category = "clean") ∧
    (response.confidence = none →
      (parse_moderation_response response).confidence = 1/2) ∧
    (response.reason = none →
      (parse_moderation_response response).reason = "No specific reason") ∧
    check_content (.ok response)
      = .ok (parse_moderation_response response,
          moderation_log_entry (parse_moderation_response response)) := by
  refine ⟨fun h => ?_, fun h => ?_, fun h => ?_, fun h => ?_, rfl⟩ <;>
    simp [parse_moderation_response, h]

/-- C9: the audit row's `action` is `"deleted"` iff `is_appropriate` is
false, with no regard to the confidence threshold or the category; hence the
recorded action can disagree with the deletion decision — witnessed by a
low-confidence inappropriate verdict logged `"deleted"` while
`should_delete` is false. -/
theorem spec_c9 :
    (∀ r : ModerationResult,
      (moderation_log_entry r).action = "deleted" ↔ r.is_appropriate = false) ∧
    (∃ threshold : ℚ, ∃ r : ModerationResult,
      (moderation_log_entry r).action = "deleted" ∧
      should_delete threshold r = false ∧ r.confidence < threshold) := by
  constructor
  · intro r
    cases hr : r.is_appropriate <;> simp [moderation_log_entry, hr]
  · exact ⟨1, ⟨false, "spam", 0, "low-confidence spam"⟩, rfl, by decide, by decide⟩

/-! ## Claims about the routing engine and providers -/

/-- C6: a provider failure inside routing analysis is returned, not raised:
`analyze_question` yields exactly the safe default decision with
`complexity = "unknown"`, `should_tag_mentors = false`, an empty domain list,
and the failure reason embedded in `reason`. -/
theorem spec_c6 (e : String) :
    analyze_question (.error e)
      = { complexity := "unknown", domains := [], should_tag_mentors := false,
          reason := "Analysis failed: " ++ e, suggested_mentors := [] } := rfl

/-- C8: the Claude provider variant supports no embeddings: `get_embedding`
yields the capability-unsupported provider error on every input and never
returns a vector. -/
theorem spec_c8 (text : String) :
    claude_get_embedding text
      = .error ("Claude provider doesn\x27t support embeddings. "
          ++ "Use OpenAI or implement Voyage AI integration.") ∧
    ∀ v : List ℚ, claude_get_embedding text ≠ .ok v := by
  exact ⟨rfl, fun v h => by simp [claude_get_embedding] at h⟩

/-- Membership in the `mentor_ids` set built by the loop of
`get_mentors_for_domains`, for any starting accumulator. -/
lemma mem_mentor_ids_foldl (cfg : MentorDomains) (tid : Int) :
    ∀ (domains : List String) (s : Finset Int),
      (tid ∈ domains.foldl
        (fun s d =>
          match cfg.lookup d with
          | some ids => s ∪ ids.toFinset
          | none => s) s)
      ↔ tid ∈ s ∨ domains.any (configured_mentor_for cfg tid) = true := by
  intro domains
  induction domains with
  | nil => simp
  | cons d ds ih =>
    intro s
    rw [List.foldl_cons, List.any_cons, ih]
    cases h : cfg.lookup d <;>
      simp [configured_mentor_for, h, or_assoc]

/-- C5: `get_mentors_for_domains` returns exactly the store rows whose
telegram id lies in the union of the configured mentor sets of the requested
domains and whose `is_mentor` flag is true: the configured union is
deduplicated by set semantics (each store row appears at most as often as in
the store, so a mentor configured under two requested domains is returned
once), and every returned row is mentor-flagged — a configured identity with
no such store row is absent. -/
theorem spec_c5 (cfg : MentorDomains) (store : List UserRec) (domains : List String) :
    get_mentors_for_domains cfg store domains
      = store.filter (fun u =>
          domains.any (configured_mentor_for cfg u.telegram_id) && u.is_mentor) ∧
    (∀ u ∈ get_mentors_for_domains cfg store domains,
      u.is_mentor = true ∧ domains.any (configured_mentor_for cfg u.telegram_id) = true) ∧
    (∀ u : UserRec,
      (get_mentors_for_domains cfg store domains).count u ≤ store.count u) := by
  have hmem : ∀ tid : Int,
      (tid ∈ domains.foldl
        (fun s d =>
          match cfg.lookup d with
          | some ids => s ∪ ids.toFinset
          | none => s) (∅ : Finset Int))
      ↔ domains.any (configured_mentor_for cfg tid) = true := by
    intro tid
    rw [mem_mentor_ids_foldl]
    simp
  have hfilter : get_mentors_for_domains cfg store domains
      = store.filter (fun u =>
          domains.any (configured_mentor_for cfg u.telegram_id) && u.is_mentor) := by
    rw [show get_mentors_for_domains cfg store domains
        = (if (domains.foldl
              (fun s d =>
                match cfg.lookup d with
                | some ids => s ∪ ids.toFinset
                | none => s) (∅ : Finset Int)) = ∅ then []
          else store.filter (fun u =>
            decide (u.telegram_id ∈ domains.foldl
              (fun s d =>
                match cfg.lookup d with
                | some ids => s ∪ ids.toFinset
                | none => s) (∅ : Finset Int)) && u.is_mentor)) from rfl]
    split
    · rename_i hempty
      symm
      rw [List.filter_eq_nil_iff]
      intro u _ hp
      rw [Bool.and_eq_true] at hp
      have : u.telegram_id ∈ (∅ : Finset Int) := by
        rw [← hempty, hmem]
        exact hp.1
      simp at this
    · apply List.filter_congr
      intro u _
      congr 1
      rw [Bool.eq_iff_iff, decide_eq_true_iff]
      exact hmem u.telegram_id
  refine ⟨hfilter, ?_, ?_⟩
  · intro u hu
    rw [hfilter, List.mem_filter, Bool.and_eq_true] at hu
    exact ⟨hu.2.2, hu.2.1⟩
  · intro u
    rw [hfilter]
    exact (List.filter_sublist store).count_le u

/-! ## Claims about the FAQ similarity computation -/

/-- C3 counterexample: at question embedding `[1]` against stored embedding
`[0]` — a pair of nonempty vectors whose second member has zero norm — the
similarity computation takes the division-by-zero branch: it raises rather
than yielding 0 (in particular it does not evaluate to the zero-valued
similarity `ok 0 1 0`). -/
theorem spec_c3_counterexample :
    similarity_outcome [(1 : ℚ)] [(0 : ℚ)] = SimOutcome.divByZero ∧
    similarity_outcome [(1 : ℚ)] [(0 : ℚ)] ≠ SimOutcome.ok 0 1 0 := by
  constructor
  · simp [similarity_outcome, nsq]
  · simp [similarity_outcome, nsq]

/-- C3 (amended): the zero-denominator branch of the similarity computation
is reachable, not guarded: for nonempty vectors it performs a division by
zero exactly when either vector has zero norm (yielding a database error, not
the value 0); `find_matching_faq` catches the error at its generic exception
handler and returns no match, leaving the FAQ table unchanged. -/
theorem spec_c3_amended (q e : List ℚ) :
    (similarity_outcome q e = SimOutcome.divByZero ↔
      q ≠ [] ∧ e ≠ [] ∧ (nsq q = 0 ∨ nsq e = 0)) ∧
    (∀ (store : List FAQ) (t : ℚ),
      (∃ f ∈ store, ∃ emb, f.embedding = some emb ∧
        similarity_outcome q emb = SimOutcome.divByZero) →
      find_matching_faq store q t = (none, store)) := by
  constructor
  · unfold similarity_outcome
    split
    · rename_i h
      constructor
      · intro hc
        exact absurd hc (by simp)
      · rintro ⟨hq, he, _⟩
        rcases h with h | h
        · exact absurd h hq
        · exact absurd h he
    · rename_i h
      push_neg at h
      split
      · rename_i h0
        simp [h.1, h.2, h0]
      · rename_i h0
        simp [h0]
  · rintro store t ⟨f, hf, emb, hemb, hdz⟩
    have hany : (store.filterMap (fun f =>
        f.embedding.map (fun e => (f, similarity_outcome q e)))).any
          (fun c => decide (c.2 = SimOutcome.divByZero)) = true := by
      rw [List.any_eq_true]
      refine ⟨(f, similarity_outcome q emb), ?_, by simp [hdz]⟩
      rw [List.mem_filterMap]
      exact ⟨f, hf, by rw [hemb]; rfl⟩
    unfold find_matching_faq
    rw [if_pos hany]

/-- C3 amended-claim witness: the store holding one FAQ whose embedding is
the zero-norm vector `[0]`, queried with question embedding `[1]`, hits the
division-by-zero branch, and `find_matching_faq` returns no match with the
store unchanged. -/
theorem spec_c3_witness :
    similarity_outcome [(1 : ℚ)] [(0 : ℚ)] = SimOutcome.divByZero ∧
    find_matching_faq [⟨1, "q", "a", some [(0 : ℚ)], 0⟩] [(1 : ℚ)] 1
      = (none, [⟨1, "q", "a", some [(0 : ℚ)], 0⟩]) := by
  have h := spec_c3_amended [(1 : ℚ)] [(0 : ℚ)]
  have hdz : similarity_outcome [(1 : ℚ)] [(0 : ℚ)] = SimOutcome.divByZero := by
    rw [h.1]
    simp [nsq]
  exact ⟨hdz, h.2 [⟨1, "q", "a", some [(0 : ℚ)], 0⟩] 1
    ⟨_, List.mem_singleton.mpr rfl, [(0 : ℚ)], rfl, hdz⟩⟩

/-! ## Claims about the pipeline orchestrator -/

/-- C4: a message whose author is elevated (`is_admin OR is_mentor`) is
stored and the pipeline stops: no `ModerationLog` row, no deletion, no FAQ
reply, no mentor paging, no `MentorTag` row, FAQ table untouched. -/
theorem spec_c4 (inp : PipelineInput)
    (h : inp.is_admin = true ∨ inp.is_mentor = true) :
    handle_message inp
      = { stored := true, modLogs := [], deleted := false, faqReply := none,
          routeReplySent := false, mentorTags := [], faqStoreAfter := inp.faqStore } := by
  unfold handle_message
  rcases h with h | h <;> rw [h] <;> simp

/-- C4 witness: a mentor-authored message at a concrete pipeline input. -/
theorem spec_c4_witness :
    handle_message
      { is_admin := false, is_mentor := true,
        modResponse := .ok ⟨some false, some "spam", some 1, some "spam ad"⟩,
        modThreshold := 0,
        embedResponse := .error "offline",
        faqStore := [], simThreshold := 1,
        routeResponse := .error "offline",
        mentorDomains := [], userStore := [] }
      = { stored := true, modLogs := [], deleted := false, faqReply := none,
          routeReplySent := false, mentorTags := [], faqStoreAfter := [] } :=
  spec_c4 _ (Or.inr rfl)

/-- C10: for a message that reaches the routing stage (author not elevated,
moderation parsed and not deleting, no FAQ match), `MentorTag` rows are
written and the mentor-paging reply sent exactly when the routing decision
says to tag, its domain list is non-empty, and the store resolves at least
one mentor for those domains; and the rows written are exactly one per
resolved mentor. -/
theorem spec_c10 (inp : PipelineInput) (r : ModResponse)
    (hA : inp.is_admin = false) (hM : inp.is_mentor = false)
    (hmod : inp.modResponse = .ok r)
    (hdel : should_delete inp.modThreshold (parse_moderation_response r) = false)
    (hfaq : (faq_stage inp).1 = none) :
    ((handle_message inp).mentorTags ≠ [] ↔
      ((analyze_question inp.routeResponse).should_tag_mentors = true ∧
       (analyze_question inp.routeResponse).domains ≠ [] ∧
       get_mentors_for_domains inp.mentorDomains inp.userStore
         (analyze_question inp.routeResponse).domains ≠ [])) ∧
    ((handle_message inp).routeReplySent = true ↔
      ((analyze_question inp.routeResponse).should_tag_mentors = true ∧
       (analyze_question inp.routeResponse).domains ≠ [] ∧
       get_mentors_for_domains inp.mentorDomains inp.userStore
         (analyze_question inp.routeResponse).domains ≠ [])) ∧
    ((handle_message inp).mentorTags ≠ [] →
      (handle_message inp).mentorTags
        = (get_mentors_for_domains inp.mentorDomains inp.userStore
            (analyze_question inp.routeResponse).domains).map (fun m => m.id)) := by
  have hmsg : handle_message inp
      = (if (analyze_question inp.routeResponse).should_tag_mentors
            && !(analyze_question inp.routeResponse).domains.isEmpty then
          if !(get_mentors_for_domains inp.mentorDomains inp.userStore
              (analyze_question inp.routeResponse).domains).isEmpty then
            { stored := true,
              modLogs := [moderation_log_entry (parse_moderation_response r)],
              deleted := false, faqReply := none, routeReplySent := true,
              mentorTags := (get_mentors_for_domains inp.mentorDomains inp.userStore
                (analyze_question inp.routeResponse).domains).map (fun m => m.id),
              faqStoreAfter := (faq_stage inp).2 }
          else
            { stored := true,
              modLogs := [moderation_log_entry (parse_moderation_response r)],
              deleted := false, faqReply := none, routeReplySent := false,
              mentorTags := [], faqStoreAfter := (faq_stage inp).2 }
        else
          { stored := true,
            modLogs := [moderation_log_entry (parse_moderation_response r)],
            deleted := false, faqReply := none, routeReplySent := false,
            mentorTags := [], faqStoreAfter := (faq_stage inp).2 }) := by
    unfold handle_message
    rw [hA, hM, hmod]
    simp only [Bool.or_self, Bool.false_eq_true, if_false, check_content]
    rw [hdel]
    simp only [Bool.false_eq_true, if_false]
    rw [hfaq]
  by_cases htag : (analyze_question inp.routeResponse).should_tag_mentors = true
  · by_cases hdom : (analyze_question inp.routeResponse).domains = []
    · rw [hmsg]
      simp [htag, hdom]
    · by_cases hmen : get_mentors_for_domains inp.mentorDomains inp.userStore
          (analyze_question inp.routeResponse).domains = []
      · rw [hmsg]
        simp [htag, hdom, hmen, List.isEmpty_iff]
      · rw [hmsg]
        simp [htag, hdom, hmen, List.isEmpty_iff]
  · rw [hmsg]
    simp [htag]

/-- A concrete pipeline input reaching the routing stage: non-elevated
author, moderation response with all fields absent (parsed as appropriate,
so no deletion), embedding provider failing (so no FAQ match), a routing
decision tagging the `computer_vision` domain, one configured mentor with a
mentor-flagged store row. -/
def c10Input : PipelineInput :=
  { is_admin := false, is_mentor := false,
    modResponse := .ok ⟨none, none, none, none⟩,
    modThreshold := 1,
    embedResponse := .error "embedding provider offline",
    faqStore := [], simThreshold := 1,
    routeResponse := .ok ⟨some "complex", some ["computer_vision"], some true,
      some "needs an expert", none⟩,
    mentorDomains := [("computer_vision", [5])],
    userStore := [⟨1, 5, some "cv_mentor", false, true⟩] }

/-- C10 witness: on `c10Input` all three conditions hold, the paging reply is
sent and exactly the one resolved mentor is tagged. -/
theorem spec_c10_witness :
    (handle_message c10Input).routeReplySent = true ∧
    (handle_message c10Input).mentorTags = [1] := by
  have h := spec_c10 c10Input ⟨none, none, none, none⟩ rfl rfl rfl rfl rfl
  have hc : (analyze_question c10Input.routeResponse).should_tag_mentors = true ∧
      (analyze_question c10Input.routeResponse).domains ≠ [] ∧
      get_mentors_for_domains c10Input.mentorDomains c10Input.userStore
        (analyze_question c10Input.routeResponse).domains ≠ [] := by
    refine ⟨rfl, ?_, ?_⟩ <;> decide
  exact ⟨h.2.1.mpr hc, (h.2.2 (h.1.mpr hc)).trans (by decide)⟩

/-! ## Correctness of the exact similarity comparisons (for C2) -/

/-- A squared norm is nonnegative. -/
lemma nsq_nonneg (x : List ℚ) : 0 ≤ nsq x := by
  refine List.sum_nonneg ?_
  intro a ha
  rcases List.mem_map.mp ha with ⟨b, _, rfl⟩
  exact mul_self_nonneg b

/-- A nonzero squared norm is positive. -/
lemma nsq_pos (x : List ℚ) (h : nsq x ≠ 0) : 0 < nsq x :=
  lt_of_le_of_ne (nsq_nonneg x) (Ne.symm h)

/-- The empty vector has zero squared norm. -/
lemma nsq_nil : nsq ([] : List ℚ) = 0 := rfl

/-- A vector of nonzero squared norm is nonempty. -/
lemma ne_nil_of_nsq_ne_zero (x : List ℚ) (h : nsq x ≠ 0) : x ≠ [] := by
  rintro rfl
  exact h nsq_nil

/-- On vectors of nonzero norm the SQL similarity expression evaluates to its
value triple. -/
lemma similarity_outcome_ok (q e : List ℚ) (hq : nsq q ≠ 0) (he : nsq e ≠ 0) :
    similarity_outcome q e = SimOutcome.ok (dotP q e) (nsq q) (nsq e) := by
  unfold similarity_outcome
  rw [if_neg, if_neg]
  · rintro (h | h)
    · exact hq h
    · exact he h
  · rintro (h | h)
    · exact ne_nil_of_nsq_ne_zero q hq h
    · exact ne_nil_of_nsq_ne_zero e he h

/-- The sort-order comparison is total: of two rows, one sorts at least as
early as the other. -/
lemma sqrtMulLe_total (a m b n : ℚ) (h : sqrtMulLe a m b n = false) :
    sqrtMulLe b n a m = true := by
  unfold sqrtMulLe at h ⊢
  by_cases hb : 0 ≤ b
  · by_cases ha : 0 ≤ a
    · rw [if_pos hb, Bool.or_eq_false_iff, decide_eq_false_iff_not,
        decide_eq_false_iff_not, not_le, not_le] at h
      rw [if_pos ha, Bool.or_eq_true]
      exact Or.inr (decide_eq_true h.2.le)
    · rw [if_pos hb, Bool.or_eq_false_iff, decide_eq_false_iff_not] at h
      exact absurd (le_of_lt (not_le.mp ha)) h.1
  · by_cases ha : 0 ≤ a
    · rw [if_pos ha, Bool.or_eq_true]
      exact Or.inl (decide_eq_true (le_of_lt (not_le.mp hb)))
    · rw [if_neg hb, Bool.and_eq_false_iff] at h
      rw [if_neg ha, Bool.and_eq_true]
      rcases h with h | h
      · rw [decide_eq_false_iff_not] at h
        exact absurd (le_of_lt (not_le.mp ha)) h
      · rw [decide_eq_false_iff_not, not_le] at h
        exact ⟨decide_eq_true (le_of_lt (not_le.mp hb)), decide_eq_true h.le⟩

/-- Threshold transfer along the sort order: if row 1 sorts at least as early
as row 2 (`d₂·√n₁ ≤ d₁·√n₂`) and row 2 passes the threshold
(`t·√(nq·n₂) ≤ d₂`), then row 1 passes the threshold (`t·√(nq·n₁) ≤ d₁`). -/
lemma ratSqrtLe_transfer (t d₁ n₁ d₂ n₂ nq : ℚ)
    (hnq : 0 < nq) (hn1 : 0 < n₁) (hn2 : 0 < n₂)
    (h1 : sqrtMulLe d₂ n₁ d₁ n₂ = true)
    (h2 : ratSqrtLe t d₂ (nq * n₂) = true) :
    ratSqrtLe t d₁ (nq * n₁) = true := by
  unfold sqrtMulLe at h1
  unfold ratSqrtLe at h2 ⊢
  by_cases ht : 0 ≤ t
  · rw [if_pos ht] at h2 ⊢
    obtain ⟨hd2, hsq2⟩ : 0 ≤ d₂ ∧ t ^ 2 * (nq * n₂) ≤ d₂ ^ 2 := by simpa using h2
    by_cases hd1 : 0 ≤ d₁
    · rw [if_pos hd1] at h1
      rw [Bool.and_eq_true]
      refine ⟨decide_eq_true hd1, decide_eq_true ?_⟩
      rcases (by simpa using h1 : d₂ ≤ 0 ∨ d₂ ^ 2 * n₁ ≤ d₁ ^ 2 * n₂) with hle | hsq1
      · have hd2z : d₂ = 0 := le_antisymm hle hd2
        rw [hd2z] at hsq2
        norm_num at hsq2
        nlinarith [mul_pos hnq hn1, mul_pos hnq hn2, sq_nonneg d₁, sq_nonneg t]
      · nlinarith [mul_le_mul_of_nonneg_right hsq2 (le_of_lt hn1), sq_nonneg d₁]
    · rw [if_neg hd1] at h1
      obtain ⟨hle, hsq1⟩ : d₂ ≤ 0 ∧ d₁ ^ 2 * n₂ ≤ d₂ ^ 2 * n₁ := by simpa using h1
      have hd2z : d₂ = 0 := le_antisymm hle hd2
      rw [hd2z] at hsq1
      norm_num at hsq1
      have hd1n : d₁ < 0 := not_le.mp hd1
      exact absurd rfl (by nlinarith [mul_pos_of_neg_of_neg hd1n hd1n, hn2, hsq1] :
        ¬ (0 : ℚ) = 0)
  · rw [if_neg ht] at h2 ⊢
    by_cases hd1 : 0 ≤ d₁
    · rw [Bool.or_eq_true]
      exact Or.inl (decide_eq_true hd1)
    · rw [if_neg hd1] at h1
      obtain ⟨hle, hsq1⟩ : d₂ ≤ 0 ∧ d₁ ^ 2 * n₂ ≤ d₂ ^ 2 * n₁ := by simpa using h1
      have hd2sq : d₂ ^ 2 ≤ t ^ 2 * (nq * n₂) := by
        rcases (by simpa using h2 : 0 ≤ d₂ ∨ d₂ ^ 2 ≤ t ^ 2 * (nq * n₂)) with hge | hs
        · have hz : d₂ = 0 := le_antisymm hle hge
          rw [hz]
          norm_num
          positivity
        · exact hs
      rw [Bool.or_eq_true]
      refine Or.inr (decide_eq_true ?_)
      nlinarith [mul_le_mul_of_nonneg_right hd2sq (le_of_lt hn1), hsq1, hn2,
        mul_pos hnq hn1]

/-- A well-formed fetched row for question norm `nq`: its similarity
evaluated to a value whose middle component is `nq` and whose entry norm is
positive (what every row of a successful query satisfies when the question
has nonzero norm and every stored embedding has nonzero norm). -/
def RowOK (nq : ℚ) (r : FAQ × SimOutcome) : Prop :=
  ∃ d ne, r.2 = SimOutcome.ok d nq ne ∧ 0 < ne

/-- On well-formed rows the sort comparison is total. -/
lemma rowGe_total (x y : FAQ × SimOutcome) (h : rowGe x y = false) :
    rowGe y x = true := by
  unfold rowGe at h ⊢
  rcases hx : x.2 with _ | _ | ⟨d₁, m₁, n₁⟩ <;> rw [hx] at h <;>
    rcases hy : y.2 with _ | _ | ⟨d₂, m₂, n₂⟩ <;> rw [hy] at h <;>
      simp_all
  exact sqrtMulLe_total _ _ _ _ h

/-- On well-formed rows, a row sorting at least as early as a passing row
passes. -/
lemma rowPass_mono (t nq : ℚ) (hnq : 0 < nq) (x y : FAQ × SimOutcome)
    (hx : RowOK nq x) (hy : RowOK nq y)
    (hge : rowGe x y = true) (hp : rowPass t y.2 = true) :
    rowPass t x.2 = true := by
  obtain ⟨d₁, n₁, hx2, hn1⟩ := hx
  obtain ⟨d₂, n₂, hy2, hn2⟩ := hy
  unfold rowGe at hge
  rw [hx2, hy2] at hge
  rw [hy2] at hp
  rw [hx2]
  exact ratSqrtLe_transfer t d₁ n₁ d₂ n₂ nq hnq hn1 hn2 hge hp

/-- The fetched row is one of the query's rows. -/
lemma pickBest_mem (c : FAQ × SimOutcome) (cs : List (FAQ × SimOutcome)) :
    pickBest c cs ∈ c :: cs := by
  unfold pickBest
  induction cs generalizing c with
  | nil => simp
  | cons y ys ih =>
    rw [List.foldl_cons]
    by_cases hg : rowGe c y
    · rw [if_pos hg]
      rcases List.mem_cons.mp (ih c) with h1 | h1
      · rw [h1]
        exact List.mem_cons_self _ _
      · exact List.mem_cons_of_mem _ (List.mem_cons_of_mem _ h1)
    · rw [if_neg hg]
      rcases List.mem_cons.mp (ih y) with h1 | h1
      · rw [h1]
        exact List.mem_cons_of_mem _ (List.mem_cons_self _ _)
      · exact List.mem_cons_of_mem _ (List.mem_cons_of_mem _ h1)

/-- If the start row or some listed row passes the threshold, the fetched row
passes (all rows well-formed). -/
lemma pickBest_pass (t nq : ℚ) (hnq : 0 < nq) (c : FAQ × SimOutcome)
    (cs : List (FAQ × SimOutcome))
    (hc : RowOK nq c) (hcs : ∀ r ∈ cs, RowOK nq r)
    (h : rowPass t c.2 = true ∨ ∃ r ∈ cs, rowPass t r.2 = true) :
    rowPass t (pickBest c cs).2 = true := by
  unfold pickBest
  induction cs generalizing c with
  | nil =>
    rcases h with h | ⟨r, hr, _⟩
    · exact h
    · exact absurd hr (List.not_mem_nil r)
  | cons y ys ih =>
    rw [List.foldl_cons]
    have hy : RowOK nq y := hcs y (List.mem_cons_self _ _)
    have hys : ∀ r ∈ ys, RowOK nq r := fun r hr => hcs r (List.mem_cons_of_mem _ hr)
    have hstep : RowOK nq (if rowGe c y then c else y) := by
      by_cases hg : rowGe c y
      · rw [if_pos hg]; exact hc
      · rw [if_neg hg]; exact hy
    refine ih (if rowGe c y then c else y) hstep hys ?_
    rcases h with h | ⟨r, hr, hrp⟩
    · left
      by_cases hg : rowGe c y
      · rw [if_pos hg]; exact h
      · rw [if_neg hg]
        exact rowPass_mono t nq hnq y c hy hc
          (rowGe_total c y (Bool.not_eq_true _ ▸ eq_false_of_ne_true hg)) h
    · rcases List.mem_cons.mp hr with heq | hr2
      · subst heq
        left
        by_cases hg : rowGe c r
        · rw [if_pos hg]
          exact rowPass_mono t nq hnq c r hc hy hg hrp
        · rw [if_neg hg]; exact hrp
      · exact Or.inr ⟨r, hr2, hrp⟩

/-- The match counters after `_increment_match_count`: the matched id's
counter is one higher, every other row's counter is unchanged. -/
lemma increment_match_count_map (store : List FAQ) (faq_id : ℕ) :
    (increment_match_count store faq_id).map FAQ.times_matched
      = store.map (fun g =>
          if g.id = faq_id then g.times_matched + 1 else g.times_matched) := by
  unfold increment_match_count
  rw [List.map_map]
  apply List.map_congr_left
  intro g _
  by_cases h : g.id = faq_id <;> simp [h]

/-- C2: when the question embedding and every stored non-null embedding have
nonzero norm (so every row's similarity is defined), `find_matching_faq`
returns a match iff some stored entry with a non-null embedding has cosine
similarity at least the threshold (equivalently, the best similarity reaches
the threshold; `ratSqrtLe t d (nq·ne) = true` decides
`t ≤ d / (√nq·√ne)` exactly); a returned match is a stored entry with a
non-null embedding whose counter alone is incremented by exactly 1; with no
match the table is unchanged. -/
theorem spec_c2 (store : List FAQ) (q : List ℚ) (t : ℚ)
    (hq : nsq q ≠ 0)
    (hstore : ∀ f ∈ store, ∀ e, f.embedding = some e → nsq e ≠ 0) :
    ((find_matching_faq store q t).1.isSome = true ↔
      ∃ f ∈ store, ∃ e, f.embedding = some e ∧
        ratSqrtLe t (dotP q e) (nsq q * nsq e) = true) ∧
    (∀ f, (find_matching_faq store q t).1 = some f →
      f ∈ store ∧ f.embedding.isSome = true ∧
      (find_matching_faq store q t).2 = increment_match_count store f.id ∧
      (find_matching_faq store q t).2.map FAQ.times_matched
        = store.map (fun g =>
            if g.id = f.id then g.times_matched + 1 else g.times_matched)) ∧
    ((find_matching_faq store q t).1 = none →
      (find_matching_faq store q t).2 = store) := by
  have hnq : 0 < nsq q := nsq_pos q hq
  rcases hcands : store.filterMap
      (fun f => f.embedding.map (fun e => (f, similarity_outcome q e)))
    with _ | ⟨c, cs⟩
  · -- no row with a non-null embedding: no match, table unchanged
    have hfm : find_matching_faq store q t = (none, store) := by
      simp only [find_matching_faq]
      rw [hcands]
      simp
    rw [hfm]
    refine ⟨?_, ?_, fun _ => rfl⟩
    · simp only [Option.isSome_none, Bool.false_eq_true, false_iff]
      rintro ⟨f, hf, e, hemb, _⟩
      have : (f, similarity_outcome q e) ∈ store.filterMap
          (fun f => f.embedding.map (fun e => (f, similarity_outcome q e))) := by
        rw [List.mem_filterMap]
        exact ⟨f, hf, by rw [hemb]; rfl⟩
      rw [hcands] at this
      exact absurd this (List.not_mem_nil _)
    · intro f hf
      exact absurd hf (by simp)
  · -- at least one row: membership and well-formedness of all rows
    have hmemc : ∀ p ∈ c :: cs, p.1 ∈ store ∧
        ∃ e, p.1.embedding = some e ∧ p.2 = similarity_outcome q e := by
      intro p hp
      rw [← hcands, List.mem_filterMap] at hp
      obtain ⟨f, hf, hfp⟩ := hp
      rcases hemb : f.embedding with _ | e
      · rw [hemb] at hfp
        exact absurd hfp (by simp)
      · rw [hemb] at hfp
        obtain rfl : (f, similarity_outcome q e) = p := by simpa using hfp
        exact ⟨hf, e, hemb, rfl⟩
    have hOK : ∀ p ∈ c :: cs, RowOK (nsq q) p := by
      intro p hp
      obtain ⟨hps, e, hemb, hsim⟩ := hmemc p hp
      have he : nsq e ≠ 0 := hstore p.1 hps e hemb
      exact ⟨dotP q e, nsq e,
        by rw [hsim, similarity_outcome_ok q e hq he], nsq_pos e he⟩
    have hnoerr : (c :: cs).any (fun p => decide (p.2 = SimOutcome.divByZero))
        = false := by
      rw [← Bool.not_eq_true, List.any_eq_true]
      rintro ⟨p, hp, hdp⟩
      obtain ⟨d, ne, hok, -⟩ := hOK p hp
      rw [decide_eq_true_iff, hok] at hdp
      exact SimOutcome.noConfusion hdp
    have hbmem := pickBest_mem c cs
    obtain ⟨hbstore, eb, hembb, hsimb⟩ := hmemc _ hbmem
    have heb : nsq eb ≠ 0 := hstore _ hbstore eb hembb
    have hokb : (pickBest c cs).2
        = SimOutcome.ok (dotP q eb) (nsq q) (nsq eb) := by
      rw [hsimb, similarity_outcome_ok q eb hq heb]
    have hfm : find_matching_faq store q t
        = (if rowPass t (pickBest c cs).2 then
            (some (pickBest c cs).1,
              increment_match_count store (pickBest c cs).1.id)
          else (none, store)) := by
      simp only [find_matching_faq]
      rw [hcands, hnoerr]
      simp
    by_cases hpass : rowPass t (pickBest c cs).2 = true
    · rw [hfm, if_pos hpass]
      refine ⟨?_, ?_, ?_⟩
      · simp only [Option.isSome_some, true_iff]
        refine ⟨(pickBest c cs).1, hbstore, eb, hembb, ?_⟩
        rw [hokb] at hpass
        exact hpass
      · intro f hf
        obtain rfl : (pickBest c cs).1 = f := by simpa using hf
        exact ⟨hbstore, by rw [hembb]; rfl, rfl, increment_match_count_map store _⟩
      · intro hcon
        exact absurd hcon (by simp)
    · rw [hfm, if_neg hpass]
      refine ⟨?_, ?_, fun _ => rfl⟩
      · simp only [Option.isSome_none, Bool.false_eq_true, false_iff]
        rintro ⟨f, hf, e, hemb, hrat⟩
        have hmem : (f, similarity_outcome q e) ∈ c :: cs := by
          rw [← hcands, List.mem_filterMap]
          exact ⟨f, hf, by rw [hemb]; rfl⟩
        have hrp : rowPass t (f, similarity_outcome q e).2 = true := by
          show rowPass t (similarity_outcome q e) = true
          rw [similarity_outcome_ok q e hq (hstore f hf e hemb)]
          exact hrat
        have : rowPass t (pickBest c cs).2 = true := by
          refine pickBest_pass t (nsq q) hnq c cs
            (hOK c (List.mem_cons_self _ _))
            (fun r hr => hOK r (List.mem_cons_of_mem _ hr)) ?_
          rcases List.mem_cons.mp hmem with heq | hmem2
          · left
            rw [← heq]
            exact hrp
          · exact Or.inr ⟨_, hmem2, hrp⟩
        exact hpass this
      · intro f hf
        exact absurd hf (by simp)

/-- The one-entry store of the C2 witness. -/
def c2Faq : FAQ := ⟨1, "what is sgd", "stochastic gradient descent", some [(1 : ℚ)], 0⟩

/-- C2 witness: on the one-entry store with embedding `[1]`, question
embedding `[1]` and threshold `1`, the hypotheses hold, a match is returned,
and the matched entry's counter goes from 0 to 1. -/
theorem spec_c2_witness :
    (find_matching_faq [c2Faq] [(1 : ℚ)] 1).1.isSome = true ∧
    (find_matching_faq [c2Faq] [(1 : ℚ)] 1).1 = some c2Faq ∧
    (find_matching_faq [c2Faq] [(1 : ℚ)] 1).2.map FAQ.times_matched = [1] := by
  have hq : nsq [(1 : ℚ)] ≠ 0 := by norm_num [nsq]
  have hstore : ∀ f ∈ [c2Faq], ∀ e, f.embedding = some e → nsq e ≠ 0 := by
    intro f hf e he
    rw [List.mem_singleton] at hf
    subst hf
    obtain rfl : [(1 : ℚ)] = e := Option.some.inj he
    exact hq
  have h := spec_c2 [c2Faq] [(1 : ℚ)] 1 hq hstore
  have hsome : (find_matching_faq [c2Faq] [(1 : ℚ)] 1).1.isSome = true := by
    rw [h.1]
    refine ⟨c2Faq, List.mem_singleton.mpr rfl, [(1 : ℚ)], rfl, ?_⟩
    norm_num [ratSqrtLe, nsq, dotP]
  obtain ⟨f, hfeq⟩ := Option.isSome_iff_exists.mp hsome
  have hmain := h.2.1 f hfeq
  have hfc : f = c2Faq := List.mem_singleton.mp hmain.1
  subst hfc
  refine ⟨hsome, hfeq, ?_⟩
  rw [hmain.2.2.2]
  simp [c2Faq]
